import Mathlib

/-!
Verification of `update.py` (cloudflare-dynamic-dns): a shallow embedding of
the program's data model and operations in Lean 4, together with proofs of
the specification's testable properties.

The program is a sequential dynamic-DNS client.  Its state is JSON-shaped
Python data (dicts, lists, strings), its effects are HTTP calls to three
endpoints, DNS resolution, stdin prompts, and a config file on disk.  We
embed:

  * Python/JSON values as an inductive `Json`, with Python's subscripting,
    `del`, assignment, truthiness and `dict.get` semantics (including the
    exceptions they raise: `KeyError`, `IndexError`, `TypeError`);
  * `json.dumps(config, indent=2)` and `json.load` as an executable
    renderer and parser over `Json`, with a proved round-trip theorem;
  * the external world (DNS resolution via `socket.gethostbyname`, the
    public-IP echo service, the provider API, stdin, the filesystem) as an
    explicit environment of oracles;
  * each function of `update.py` as a Lean function over that environment,
    returning `Except PyError` results plus a trace of the HTTP requests
    it issued, so that claims about "zero provider write calls" are
    statements about the trace.
-/

/-- Python exceptions that `update.py` can raise or handle.
`httpError` is `requests.exceptions.HTTPError` (raised by
`raise_for_status`, or by a transport failure surfacing from `requests`);
`valueError` covers `json.JSONDecodeError` (a `ValueError` subclass);
`gaierror` is `socket.gaierror` from `socket.gethostbyname`. -/
inductive PyError where
  | httpError
  | indexError
  | keyError
  | typeError
  | valueError
  | gaierror
deriving Repr, DecidableEq

/-- JSON-shaped Python values: `None`, booleans, (natural) numbers, strings,
lists and dicts.  Dicts are ordered association lists, as Python dicts are
insertion-ordered; a value representing an actual Python dict has no
duplicate keys (`Json.WFb`). -/
inductive Json where
  | null : Json
  | bool : Bool → Json
  | num : Nat → Json
  | str : String → Json
  | arr : List Json → Json
  | obj : List (String × Json) → Json
deriving Repr

/-- Python truthiness of a JSON-shaped value: `None`, `False`, `0`, `""`,
`[]` and `{}` are falsy, everything else truthy. -/
def Json.truthy : Json → Bool
  | .null => false
  | .bool b => b
  | .num n => n != 0
  | .str s => s != ""
  | .arr xs => !xs.isEmpty
  | .obj kvs => !kvs.isEmpty

/-- Subscripting `d[k]` on a Python value: dict lookup raising `KeyError` when the key is
absent; subscripting `None` or a scalar raises `TypeError`; subscripting a
list with a string raises `TypeError`. -/
def Json.getItem : Json → String → Except PyError Json
  | .obj kvs, k =>
    match kvs.lookup k with
    | some v => .ok v
    | none => .error .keyError
  | _, _ => .error .typeError

/-- Subscripting `l[i]` on a Python value: list indexing raising `IndexError` when out of
range; indexing a dict with an integer raises `KeyError`; indexing `None` or
a scalar raises `TypeError`. -/
def Json.getIdx : Json → Nat → Except PyError Json
  | .arr xs, i =>
    match xs.get? i with
    | some v => .ok v
    | none => .error .indexError
  | .obj _, _ => .error .keyError
  | _, _ => .error .typeError

/-- Python `d.get(k)` on a dict: the value when present, `None` otherwise.
Calling `.get` on a non-dict raises (`AttributeError`, modelled as
`TypeError`). -/
def Json.pyGet : Json → String → Except PyError Json
  | .obj kvs, k => .ok ((kvs.lookup k).getD .null)
  | _, _ => .error .typeError

/-- Remove the first binding of key `k` from an association list. -/
def eraseKey : List (String × Json) → String → List (String × Json)
  | [], _ => []
  | (k', v') :: kvs, k => if k' = k then kvs else (k', v') :: eraseKey kvs k

/-- Replace the first binding of key `k` (keeping its position), or append a
new binding at the end — Python dict assignment semantics. -/
def setKey : List (String × Json) → String → Json → List (String × Json)
  | [], k, v => [(k, v)]
  | (k', v') :: kvs, k, v =>
    if k' = k then (k, v) :: kvs else (k', v') :: setKey kvs k v

/-- Python `del d[k]` on a value: raises `KeyError` when the key is absent,
`TypeError` on a non-dict. -/
def Json.pyDel : Json → String → Except PyError Json
  | .obj kvs, k =>
    match kvs.lookup k with
    | some _ => .ok (.obj (eraseKey kvs k))
    | none => .error .keyError
  | _, _ => .error .typeError

/-- Assignment `d[k] = v` on a Python value: raises `TypeError` on a non-dict. -/
def Json.setItem : Json → String → Json → Except PyError Json
  | .obj kvs, k, v => .ok (.obj (setKey kvs k v))
  | _, _, _ => .error .typeError

/-- Membership `k in d` for a Python dict (the only shape `update.py` applies it to). -/
def Json.hasKey : Json → String → Except PyError Bool
  | .obj kvs, k => .ok (kvs.lookup k).isSome
  | _, _ => .error .typeError

/-- Extract the underlying string of a JSON string value (config fields and
API identifiers handled by `update.py` are strings). -/
def Json.asString : Json → Except PyError String
  | .str s => .ok s
  | _ => .error .typeError

mutual

/-- Well-formedness of a value as a tree of Python data: every dict in it
has pairwise-distinct keys (Python dicts cannot hold duplicate keys). -/
def Json.WFb : Json → Bool
  | .null => true
  | .bool _ => true
  | .num _ => true
  | .str _ => true
  | .arr xs => Json.WFbArr xs
  | .obj kvs => decide (kvs.map Prod.fst).Nodup && Json.WFbObj kvs

/-- All elements of a list are well-formed. -/
def Json.WFbArr : List Json → Bool
  | [] => true
  | x :: xs => x.WFb && Json.WFbArr xs

/-- All values of an association list are well-formed. -/
def Json.WFbObj : List (String × Json) → Bool
  | [] => true
  | (_, v) :: kvs => v.WFb && Json.WFbObj kvs

end

/-- Lowercase hexadecimal digit character for `n < 16`. -/
def hexDigit (n : Nat) : Char :=
  if n < 10 then Char.ofNat (n + 48) else Char.ofNat (n + 87)

/-- JSON escaping of one character, as `json.dumps` emits it: `\"`, `\\`,
the short escapes for newline, tab, carriage return, backspace and formfeed,
`\u00xx` for the remaining control characters, and the character itself
otherwise. -/
def escapeChar (c : Char) : List Char :=
  if c = '"' then ['\\', '"']
  else if c = '\\' then ['\\', '\\']
  else if c = '\n' then ['\\', 'n']
  else if c = '\t' then ['\\', 't']
  else if c = '\r' then ['\\', 'r']
  else if c.toNat = 8 then ['\\', 'b']
  else if c.toNat = 12 then ['\\', 'f']
  else if c.toNat < 32 then
    ['\\', 'u', '0', '0', hexDigit (c.toNat / 16), hexDigit (c.toNat % 16)]
  else [c]

/-- Escaped body of a JSON string literal, including the closing quote. -/
def escBody : List Char → List Char
  | [] => ['"']
  | c :: cs => escapeChar c ++ escBody cs

/-- A JSON string literal denoting `s`. -/
def renderStr (s : String) : List Char := '"' :: escBody s.data

/-- Decimal digits of `n` when `0 < n ≤ fuel` (most significant first). -/
def natDigits : Nat → Nat → List Char
  | 0, _ => []
  | fuel + 1, n => if n = 0 then [] else natDigits fuel (n / 10) ++ [Char.ofNat (n % 10 + 48)]

/-- Decimal rendering of a natural number. -/
def natRender (n : Nat) : List Char :=
  if n = 0 then ['0'] else natDigits (n + 1) n

/-- A run of `n` space characters. -/
def spaces : Nat → List Char
  | 0 => []
  | n + 1 => ' ' :: spaces n

mutual

/-- Rendering of `json.dumps(v, indent=2)` at indentation depth `d`:
pretty-printed JSON with two-space indentation, item separator `,` and key
separator `: `, exactly as `save_config` serializes the config. -/
def renderVal : Json → Nat → List Char
  | .null, _ => "null".data
  | .bool true, _ => "true".data
  | .bool false, _ => "false".data
  | .num n, _ => natRender n
  | .str s, _ => renderStr s
  | .arr [], _ => "[]".data
  | .arr (x :: xs), d =>
    '[' :: '\n' :: spaces (d + 2) ++ renderVal x (d + 2) ++ renderArrTail xs (d + 2)
      ++ '\n' :: spaces d ++ [']']
  | .obj [], _ => ['\x7b', '\x7d']
  | .obj ((k, v) :: kvs), d =>
    '\x7b' :: '\n' :: spaces (d + 2) ++ renderStr k ++ ':' :: ' ' :: renderVal v (d + 2)
      ++ renderObjTail kvs (d + 2) ++ '\n' :: spaces d ++ ['\x7d']

/-- Array items after the first, each on its own indented line after a comma. -/
def renderArrTail : List Json → Nat → List Char
  | [], _ => []
  | x :: xs, d => ',' :: '\n' :: spaces d ++ renderVal x d ++ renderArrTail xs d

/-- Object items after the first, each on its own indented line after a comma. -/
def renderObjTail : List (String × Json) → Nat → List Char
  | [], _ => []
  | (k, v) :: kvs, d =>
    ',' :: '\n' :: spaces d ++ renderStr k ++ ':' :: ' ' :: renderVal v d ++ renderObjTail kvs d

end

/-- The string `json.dumps(v, indent=2)`. -/
def json_dumps (v : Json) : String := String.mk (renderVal v 0)

/-- JSON whitespace. -/
def isWs (c : Char) : Bool := c = ' ' || c = '\n' || c = '\t' || c = '\r'

/-- Drop leading JSON whitespace. -/
def skipWs : List Char → List Char
  | [] => []
  | c :: cs => if isWs c then skipWs cs else c :: cs

/-- Numeric value of a hexadecimal digit character, if it is one. -/
def hexVal (c : Char) : Option Nat :=
  if '0' ≤ c ∧ c ≤ '9' then some (c.toNat - 48)
  else if 'a' ≤ c ∧ c ≤ 'f' then some (c.toNat - 87)
  else if 'A' ≤ c ∧ c ≤ 'F' then some (c.toNat - 55)
  else none

/-- Parse the body of a JSON string literal (after the opening quote),
returning the decoded characters and the input after the closing quote. -/
def parseStrBody : List Char → Option (List Char × List Char)
  | [] => none
  | c :: rest =>
    if c = '"' then some ([], rest)
    else if c = '\\' then
      match rest with
      | [] => none
      | e :: r =>
        if e = '"' then (parseStrBody r).map fun p => ('"' :: p.1, p.2)
        else if e = '\\' then (parseStrBody r).map fun p => ('\\' :: p.1, p.2)
        else if e = '/' then (parseStrBody r).map fun p => ('/' :: p.1, p.2)
        else if e = 'n' then (parseStrBody r).map fun p => ('\n' :: p.1, p.2)
        else if e = 't' then (parseStrBody r).map fun p => ('\t' :: p.1, p.2)
        else if e = 'r' then (parseStrBody r).map fun p => ('\r' :: p.1, p.2)
        else if e = 'b' then (parseStrBody r).map fun p => (Char.ofNat 8 :: p.1, p.2)
        else if e = 'f' then (parseStrBody r).map fun p => (Char.ofNat 12 :: p.1, p.2)
        else if e = 'u' then
          match r with
          | h1 :: h2 :: h3 :: h4 :: r2 =>
            match hexVal h1, hexVal h2, hexVal h3, hexVal h4 with
            | some a, some b, some c', some d =>
              (parseStrBody r2).map fun p =>
                (Char.ofNat (((a * 16 + b) * 16 + c') * 16 + d) :: p.1, p.2)
            | _, _, _, _ => none
          | _ => none
        else none
    else (parseStrBody rest).map fun p => (c :: p.1, p.2)

/-- Parse a run of decimal digits into `acc` (most significant first). -/
def parseNatAux : List Char → Nat → Nat × List Char
  | [], acc => (acc, [])
  | c :: cs, acc =>
    if c.isDigit then parseNatAux cs (acc * 10 + (c.toNat - 48)) else (acc, c :: cs)

mutual

/-- Parse one JSON value after skipping leading whitespace, returning it and
the unconsumed input.  `fuel` bounds the nesting depth. -/
def parseVal : Nat → List Char → Option (Json × List Char)
  | 0, _ => none
  | fuel + 1, cs =>
    match skipWs cs with
    | [] => none
    | c :: rest =>
      if c = 'n' then
        match rest with
        | c1 :: c2 :: c3 :: r =>
          if c1 = 'u' ∧ c2 = 'l' ∧ c3 = 'l' then some (.null, r) else none
        | _ => none
      else if c = 't' then
        match rest with
        | c1 :: c2 :: c3 :: r =>
          if c1 = 'r' ∧ c2 = 'u' ∧ c3 = 'e' then some (.bool true, r) else none
        | _ => none
      else if c = 'f' then
        match rest with
        | c1 :: c2 :: c3 :: c4 :: r =>
          if c1 = 'a' ∧ c2 = 'l' ∧ c3 = 's' ∧ c4 = 'e' then some (.bool false, r) else none
        | _ => none
      else if c = '"' then
        (parseStrBody rest).map fun p => (.str (String.mk p.1), p.2)
      else if c.isDigit then
        let p := parseNatAux (c :: rest) 0
        some (.num p.1, p.2)
      else if c = '[' then
        match skipWs rest with
        | [] => none
        | c2 :: r2 =>
          if c2 = ']' then some (.arr [], r2)
          else (parseArrItems fuel (c2 :: r2)).map fun p => (.arr p.1, p.2)
      else if c = '\x7b' then
        match skipWs rest with
        | [] => none
        | c2 :: r2 =>
          if c2 = '\x7d' then some (.obj [], r2)
          else (parseObjItems fuel (c2 :: r2)).map fun p => (.obj p.1, p.2)
      else none

/-- Parse the items of a non-empty JSON array, up to and including the
closing bracket. -/
def parseArrItems : Nat → List Char → Option (List Json × List Char)
  | 0, _ => none
  | fuel + 1, cs =>
    match parseVal fuel cs with
    | none => none
    | some (v, r) =>
      match skipWs r with
      | [] => none
      | c :: r2 =>
        if c = ']' then some ([v], r2)
        else if c = ',' then (parseArrItems fuel r2).map fun p => (v :: p.1, p.2)
        else none

/-- Parse the items of a non-empty JSON object, up to and including the
closing brace. -/
def parseObjItems : Nat → List Char → Option (List (String × Json) × List Char)
  | 0, _ => none
  | fuel + 1, cs =>
    match skipWs cs with
    | [] => none
    | c :: r =>
      if c = '"' then
        match parseStrBody r with
        | none => none
        | some (k, r2) =>
          match skipWs r2 with
          | [] => none
          | c2 :: r3 =>
            if c2 = ':' then
              match parseVal fuel r3 with
              | none => none
              | some (v, r4) =>
                match skipWs r4 with
                | [] => none
                | c3 :: r5 =>
                  if c3 = '\x7d' then some ([(String.mk k, v)], r5)
                  else if c3 = ',' then
                    (parseObjItems fuel r5).map fun p => ((String.mk k, v) :: p.1, p.2)
                  else none
            else none
      else none

end

/-- Model of `json.load` on a string: parse one JSON document, requiring only
whitespace after it; any failure is `json.JSONDecodeError`, a subclass of
`ValueError`. -/
def json_loads (s : String) : Except PyError Json :=
  match parseVal (2 * s.data.length + 2) s.data with
  | some (v, rest) => if (skipWs rest).isEmpty then .ok v else .error .valueError
  | none => .error .valueError

/-- Python whitespace as `str.strip` removes it. -/
def isPyWs (c : Char) : Bool :=
  c = ' ' || c = '\t' || c = '\n' || c = '\r' || c = '\x0b' || c = '\x0c'

/-- Python `s.strip()`: remove leading and trailing Python whitespace. -/
def pyStrip (s : String) : String :=
  String.mk (((s.data.dropWhile isPyWs).reverse.dropWhile isPyWs).reverse)

/-- An HTTP response as `requests` exposes it to `update.py`: the status
code and the JSON body that `response.json()` returns. -/
structure HttpResponse where
  status : Nat
  body : Json

/-- A plain-text HTTP response (`response.text`). -/
structure TextResponse where
  status : Nat
  text : String

/-- A GET request as `get_public_ip` issues it: URL and timeout. -/
structure GetRequest where
  url : String
  timeout : Nat
deriving Repr, DecidableEq

/-- Model of `response.raise_for_status()`: raises `requests.exceptions.HTTPError`
exactly for 4xx and 5xx status codes. -/
def raise_for_status (status : Nat) : Except PyError Unit :=
  if 400 ≤ status ∧ status < 600 then .error .httpError else .ok ()

/-- The external world `update.py` talks to: DNS resolution
(`socket.gethostbyname`), a plain-text GET (the public-IP echo service),
and the three provider endpoints (zone list, DNS-record list, per-record
PUT).  Each field returns `.error e` when the underlying `socket`/`requests`
call itself raises, and `.ok` with the response otherwise.  `Json.null`
plays the role of Python's `None` wherever it can flow (for example as a
zone id when `get_zone_id` returned `None`). -/
structure Env where
  gethostbyname : String → Except PyError String
  httpGetText : GetRequest → Except PyError TextResponse
  zones : String → String → Except PyError HttpResponse
  dnsRecords : String → Json → String → Except PyError HttpResponse
  putDnsRecord : String → Json → Json → Json → Except PyError HttpResponse

/-- A call to the DNS provider's API, as recorded in traces.  `recordPut`
is the only write. -/
inductive ProviderCall where
  | zonesGet (token zone_name : String)
  | recordsGet (token : String) (zone_id : Json) (name : String)
  | recordPut (token : String) (zone_id : Json) (record_id : Json) (body : Json)

/-- The fixed public-IP echo request: `GET https://api.ipify.org/` with a
15-second timeout. -/
def ipifyRequest : GetRequest := ⟨"https://api.ipify.org/", 15⟩

/-- Model of `get_public_ip()`: issue the single `ipifyRequest`, raise for a 4xx/5xx
status, and return `response.text.strip()`.  The second component is the
exact list of HTTP requests issued. -/
def get_public_ip (env : Env) : Except PyError String × List GetRequest :=
  (match env.httpGetText ipifyRequest with
   | .error e => .error e
   | .ok resp =>
     match raise_for_status resp.status with
     | .error e => .error e
     | .ok _ => .ok (pyStrip resp.text),
   [ipifyRequest])

/-- Model of `get_zone_id(token, zone_name)`: GET the zone list filtered by name and
raise for status; when the status is 200 and the body declares success,
return `response.json()['result'][0]['id']` (so an empty `result` list lets
an `IndexError` escape); otherwise return `None`. -/
def get_zone_id (env : Env) (token zone_name : String) :
    Except PyError Json × List ProviderCall :=
  (match env.zones token zone_name with
   | .error e => .error e
   | .ok resp =>
     match raise_for_status resp.status with
     | .error e => .error e
     | .ok _ =>
       if resp.status = 200 then
         match resp.body.pyGet "success" with
         | .error e => .error e
         | .ok s =>
           if s.truthy then
             match resp.body.getItem "result" with
             | .error e => .error e
             | .ok result =>
               match result.getIdx 0 with
               | .error e => .error e
               | .ok first => first.getItem "id"
           else .ok .null
       else .ok .null,
   [.zonesGet token zone_name])

/-- Model of `get_a_record_details(token, zone_id, name)`: GET the record list
filtered by name and type `A` and raise for status; when the status is 200
and the body declares success, return `response.json()['result'][0]` (an
empty `result` list lets an `IndexError` escape); otherwise return `None`. -/
def get_a_record_details (env : Env) (token : String) (zone_id : Json) (name : String) :
    Except PyError Json × List ProviderCall :=
  (match env.dnsRecords token zone_id name with
   | .error e => .error e
   | .ok resp =>
     match raise_for_status resp.status with
     | .error e => .error e
     | .ok _ =>
       if resp.status = 200 then
         match resp.body.pyGet "success" with
         | .error e => .error e
         | .ok s =>
           if s.truthy then
             match resp.body.getItem "result" with
             | .error e => .error e
             | .ok result => result.getIdx 0
           else .ok .null
       else .ok .null,
   [.recordsGet token zone_id name])

/-- Model of `update_record(token, zone_id, record)`: PUT the full record body to the
per-record endpoint (`record['id']` is read to build the URL, so a missing
id raises before any request) and raise for status; return
`response.json().get('success')` — the provider-declared flag, which is
`None` when the body lacks it. -/
def update_record (env : Env) (token : String) (zone_id : Json) (record : Json) :
    Except PyError Json × List ProviderCall :=
  match record.getItem "id" with
  | .error e => (.error e, [])
  | .ok rid =>
    (match env.putDnsRecord token zone_id rid record with
     | .error e => .error e
     | .ok resp =>
       match raise_for_status resp.status with
       | .error e => .error e
       | .ok _ => resp.body.pyGet "success",
     [.recordPut token zone_id rid record])

/-- The per-record outcome `check_and_update` logs: the informational
"already points to …, nothing to do", the informational "Updated …", or the
warning "Failed to update …". -/
inductive Outcome where
  | noOp
  | updated
  | updateFailed
deriving Repr, DecidableEq

/-- Model of `check_and_update(target_ip, record, zone, token)`: resolve the record's
hostname via live DNS; if it already equals the target IP, log the
informational no-op and return without touching the provider.  Otherwise
look up the zone id, fetch the record details (the debug log subscripts
`record_details['id']`, so a `None` result raises `TypeError`), delete the
`created_on` and `modified_on` fields, overwrite `content` with the target
IP, and submit the update, logging success or a warning on a declared
failure.  The second component is the exact list of provider calls issued. -/
def check_and_update (env : Env) (target_ip record zone token : String) :
    Except PyError Outcome × List ProviderCall :=
  match env.gethostbyname record with
  | .error e => (.error e, [])
  | .ok current_ip =>
    if current_ip = target_ip then (.ok .noOp, [])
    else
      match get_zone_id env token zone with
      | (.error e, t1) => (.error e, t1)
      | (.ok zone_id, t1) =>
        match get_a_record_details env token zone_id record with
        | (.error e, t2) => (.error e, t1 ++ t2)
        | (.ok rd, t2) =>
          match rd.getItem "id" with
          | .error e => (.error e, t1 ++ t2)
          | .ok _ =>
            match rd.pyDel "created_on" with
            | .error e => (.error e, t1 ++ t2)
            | .ok rd1 =>
              match rd1.pyDel "modified_on" with
              | .error e => (.error e, t1 ++ t2)
              | .ok rd2 =>
                match rd2.setItem "content" (.str target_ip) with
                | .error e => (.error e, t1 ++ t2)
                | .ok body =>
                  match update_record env token zone_id body with
                  | (.error e, t3) => (.error e, t1 ++ t2 ++ t3)
                  | (.ok flag, t3) =>
                    (.ok (if flag.truthy then .updated else .updateFailed), t1 ++ t2 ++ t3)

/-- The loop of `do_updates` over `config['records']`: entries are processed
one at a time in listed order; there is no try/except around the loop, so an
exception raised while processing one entry propagates immediately and the
remaining entries are never attempted. -/
def do_updates_loop (env : Env) (config : Json) (public_ip : String) :
    List Json → Except PyError (List Outcome) × List ProviderCall
  | [] => (.ok [], [])
  | entry :: rest =>
    match entry.getItem "record" with
    | .error e => (.error e, [])
    | .ok recordJ =>
      match recordJ.asString with
      | .error e => (.error e, [])
      | .ok record =>
        match entry.getItem "zone" with
        | .error e => (.error e, [])
        | .ok zoneJ =>
          match zoneJ.asString with
          | .error e => (.error e, [])
          | .ok zone =>
            match config.getItem "token" with
            | .error e => (.error e, [])
            | .ok tokenJ =>
              match tokenJ.asString with
              | .error e => (.error e, [])
              | .ok token =>
                match check_and_update env public_ip record zone token with
                | (.error e, t) => (.error e, t)
                | (.ok o, t) =>
                  let (res, t2) := do_updates_loop env config public_ip rest
                  (match res with
                   | .error e => .error e
                   | .ok os => .ok (o :: os), t ++ t2)

/-- Model of `do_updates(config)`: fetch the public IP first — an error there aborts
the run before any record is processed — then check/update either the
configured `records` list or the single `record`/`zone` pair.  Returns the
outcome(s), the GET requests of `get_public_ip`, and all provider calls. -/
def do_updates (env : Env) (config : Json) :
    Except PyError (List Outcome) × List GetRequest × List ProviderCall :=
  match get_public_ip env with
  | (.error e, reqs) => (.error e, reqs, [])
  | (.ok public_ip, reqs) =>
    match config.hasKey "records" with
    | .error e => (.error e, reqs, [])
    | .ok true =>
      match config.getItem "records" with
      | .error e => (.error e, reqs, [])
      | .ok (.arr entries) =>
        let (res, calls) := do_updates_loop env config public_ip entries
        (res, reqs, calls)
      | .ok _ => (.error .typeError, reqs, [])
    | .ok false =>
      match config.getItem "record" with
      | .error e => (.error e, reqs, [])
      | .ok recordJ =>
        match recordJ.asString with
        | .error e => (.error e, reqs, [])
        | .ok record =>
          match config.getItem "zone" with
          | .error e => (.error e, reqs, [])
          | .ok zoneJ =>
            match zoneJ.asString with
            | .error e => (.error e, reqs, [])
            | .ok zone =>
              match config.getItem "token" with
              | .error e => (.error e, reqs, [])
              | .ok tokenJ =>
                match tokenJ.asString with
                | .error e => (.error e, reqs, [])
                | .ok token =>
                  match check_and_update env public_ip record zone token with
                  | (.error e, calls) => (.error e, reqs, calls)
                  | (.ok o, calls) => (.ok [o], reqs, calls)

/-- The three `input()` answers of first-run setup. -/
structure SetupEnv where
  tokenInput : String
  zoneInput : String
  recordInput : String

/-- How first-run setup can abort: `sys.exit(code)` from a handled
validation failure, or an unhandled Python exception propagating. -/
inductive SetupAbort where
  | exit (code : Nat)
  | uncaught (e : PyError)
deriving Repr, DecidableEq

/-- Model of `ask_for_config()`: prompt for token and zone name, then resolve the
zone: a `requests.exceptions.HTTPError` is caught and exits with code 1
("Invalid token"), an `IndexError` is caught and exits with code 2 (unknown
zone); prompt for the record name and validate it, where only `IndexError`
is caught, exiting with code 3.  Every other exception propagates.  On
success, return the dict `{token, zone, record}` of the entered values. -/
def ask_for_config (su : SetupEnv) (env : Env) : Except SetupAbort Json :=
  let token := su.tokenInput
  let zone := su.zoneInput
  match (get_zone_id env token zone).1 with
  | .error .httpError => .error (.exit 1)
  | .error .indexError => .error (.exit 2)
  | .error e => .error (.uncaught e)
  | .ok zone_id =>
    let record := su.recordInput
    match (get_a_record_details env token zone_id record).1 with
    | .error .indexError => .error (.exit 3)
    | .error e => .error (.uncaught e)
    | .ok _ =>
      .ok (.obj [("token", .str token), ("zone", .str zone), ("record", .str record)])

/-- The filesystem as a map from path to file text; `none` stands for a file
whose `open` raises `IOError` (missing or unreadable). -/
def FS : Type := String → Option String

/-- Failure oracles for `save_config`'s two filesystem effects: opening the
path for writing, and the `os.chmod` afterwards.  Either failure raises
`IOError`, which `save_config` catches. -/
structure FsEnv where
  openFails : String → Bool
  chmodFails : String → Bool

/-- The log lines the config-persistence path emits. -/
inductive LogEvent where
  | errorFailedToCreate (path : String)
  | infoSavingConfig (path : String)
deriving Repr, DecidableEq

/-- Model of `save_config(config, path)`: write `json.dumps(config, indent=2)` to
`path`, then chmod the file to owner read/write.  An `IOError` from either
step is caught and logged as 'Failed to create'; the function returns
normally in every case. -/
def save_config (config : Json) (path : String) (fenv : FsEnv) (fs : FS) :
    FS × List LogEvent :=
  if fenv.openFails path then (fs, [.errorFailedToCreate path])
  else
    let fs' : FS := fun p => if p = path then some (json_dumps config) else fs p
    if fenv.chmodFails path then (fs', [.errorFailedToCreate path])
    else (fs', [])

/-- Model of `get_config(config_path)`: open and `json.load` the file.  Only an
`IOError` on opening triggers the interactive fallback (prompt, then log and
save); an exception from parsing or from `ask_for_config` propagates.
Returns the config with the resulting filesystem and log lines. -/
def get_config (path : String) (fs : FS) (su : SetupEnv) (env : Env) (fenv : FsEnv) :
    Except SetupAbort Json × FS × List LogEvent :=
  match fs path with
  | some text =>
    match json_loads text with
    | .ok config => (.ok config, fs, [])
    | .error e => (.error (.uncaught e), fs, [])
  | none =>
    match ask_for_config su env with
    | .error a => (.error a, fs, [])
    | .ok config =>
      let res := save_config config path fenv fs
      (.ok config, res.1, .infoSavingConfig path :: res.2)

mutual

/-- Fuel sufficient for `parseVal` to parse the rendering of a value. -/
def needVal : Json → Nat
  | .null => 1
  | .bool _ => 1
  | .num _ => 1
  | .str _ => 1
  | .arr xs => 1 + needArr xs
  | .obj kvs => 1 + needObj kvs

/-- Fuel sufficient for `parseArrItems` on the rendered items of an array. -/
def needArr : List Json → Nat
  | [] => 0
  | x :: xs => 1 + needVal x + needArr xs

/-- Fuel sufficient for `parseObjItems` on the rendered items of an object. -/
def needObj : List (String × Json) → Nat
  | [] => 0
  | (_, v) :: kvs => 1 + needVal v + needObj kvs

end

/-- A provider API body declaring success with the given result list. -/
def okBody (result : List Json) : Json :=
  .obj [("success", .bool true), ("result", .arr result)]

/-- Fixture: a zone `example.com` with id `abc123`, and an A record
`a.example.com` currently pointing at `198.51.100.9` with id `rec1` and
both bookkeeping timestamps; DNS resolves to the target IP already, so a
run is a no-op.  The echo service reports `203.0.113.5`. -/
def envNoop : Env where
  gethostbyname := fun _ => .ok "203.0.113.5"
  httpGetText := fun _ => .ok ⟨200, "203.0.113.5\n"⟩
  zones := fun _ _ => .ok ⟨200, okBody [.obj [("id", .str "abc123")]]⟩
  dnsRecords := fun _ _ _ => .ok ⟨200, okBody [.obj [("id", .str "rec1"),
    ("name", .str "a.example.com"), ("type", .str "A"),
    ("content", .str "198.51.100.9"),
    ("created_on", .str "2020-01-01"), ("modified_on", .str "2020-01-02")]]⟩
  putDnsRecord := fun _ _ _ _ => .ok ⟨200, .obj [("success", .bool true)]⟩

/-- Fixture: like `envNoop` but live DNS still resolves to the stale
address `198.51.100.9`, so an update is required. -/
def envStale : Env := { envNoop with gethostbyname := fun _ => .ok "198.51.100.9" }

/-- Fixture: like `envStale` but the zone has vanished — the zone lookup
succeeds with an empty `result` list. -/
def envZoneGone : Env := { envStale with zones := fun _ _ => .ok ⟨200, okBody []⟩ }

/-- Fixture: like `envStale` but the record has vanished — the record
lookup succeeds with an empty `result` list. -/
def envRecordGone : Env := { envStale with dnsRecords := fun _ _ _ => .ok ⟨200, okBody []⟩ }

/-- Fixture: a two-record config sharing one token. -/
def cfgTwoRecords : Json :=
  .obj [("token", .str "T"),
    ("records", .arr [.obj [("zone", .str "one.org"), ("record", .str "a.one.org")],
                      .obj [("zone", .str "two.org"), ("record", .str "a.two.org")]])]

/-- Fixture: like `envStale` but the zone `one.org` has vanished (empty
zone-lookup result) while `two.org` still exists. -/
def envFirstZoneGone : Env := { envStale with
  zones := fun _ z =>
    if z = "one.org" then .ok ⟨200, okBody []⟩
    else .ok ⟨200, okBody [.obj [("id", .str "z2")]]⟩ }

/-- Fixture: like `envStale` but the provider answers the record PUT with
HTTP 200 and a body declaring `success: false`. -/
def envPutRejected : Env :=
  { envStale with putDnsRecord := fun _ _ _ _ => .ok ⟨200, .obj [("success", .bool false)]⟩ }

/-- Fixture: the provider rejects the credential — the zone lookup comes
back with HTTP 403. -/
def envAuthRejected : Env := { envStale with zones := fun _ _ => .ok ⟨403, .obj []⟩ }

/-- Fixture: the echo service answers HTTP 301 with body `x`. -/
def envRedirect : Env := { envStale with httpGetText := fun _ => .ok ⟨301, "x"⟩ }

/-- Fixture: the echo service answers with whitespace around the address. -/
def envPaddedEcho : Env := { envStale with httpGetText := fun _ => .ok ⟨200, " 203.0.113.5 \n"⟩ }

/-- Fixture: the echo service connection fails before any response. -/
def envEchoDown : Env := { envStale with httpGetText := fun _ => .error .httpError }

/-- Fixture: an empty filesystem. -/
def fsEmpty : FS := fun _ => none

/-- Fixture: a filesystem holding a non-JSON config file. -/
def fsBadJson : FS := fun p => if p = "cloudflare-dynamic-dns.json" then some "not json" else none

/-- Fixture: a filesystem environment where every write succeeds. -/
def fenvOk : FsEnv := ⟨fun _ => false, fun _ => false⟩

/-- Fixture: a filesystem environment where opening any path for writing
raises `IOError`. -/
def fenvReadOnly : FsEnv := ⟨fun _ => true, fun _ => false⟩

/-- Fixture: interactive answers for first-run setup. -/
def suExample : SetupEnv := ⟨"T", "example.com", "a.example.com"⟩

/-- The next character, if any, is not a decimal digit — so a number parse
stops exactly at this boundary. -/
def noDigitHead : List Char → Prop
  | [] => True
  | c :: _ => c.isDigit = false

/-- The items of a non-empty array as rendered inside the brackets (first
item plus `renderArrTail`). -/
def renderItems : List Json → Nat → List Char
  | [], _ => []
  | x :: xs, d => renderVal x d ++ renderArrTail xs d

/-- The items of a non-empty object as rendered inside the braces (first
pair plus `renderObjTail`). -/
def renderKVs : List (String × Json) → Nat → List Char
  | [], _ => []
  | (k, v) :: kvs, d => renderStr k ++ ':' :: ' ' :: renderVal v d ++ renderObjTail kvs d

/-- Statement that `v` parses back from its rendering: with any leading whitespace, any
indentation depth, any sufficient fuel and any remainder that does not
start with a digit, `parseVal` returns exactly `v` and the remainder. -/
def ParsesBack (v : Json) : Prop :=
  ∀ fuel d (ws rest : List Char), needVal v ≤ fuel → (∀ c ∈ ws, isWs c = true) →
    noDigitHead rest →
    parseVal fuel (ws ++ (renderVal v d ++ rest)) = some (v, rest)

/-- Structural induction over `Json` with element-wise hypotheses for the
nested lists. -/
def Json.recAll (P : Json → Prop)
    (hnull : P .null) (hbool : ∀ b, P (.bool b)) (hnum : ∀ n, P (.num n))
    (hstr : ∀ s, P (.str s))
    (harr : ∀ xs, (∀ x ∈ xs, P x) → P (.arr xs))
    (hobj : ∀ kvs, (∀ kv ∈ kvs, P kv.2) → P (.obj kvs)) : ∀ v, P v := fun v =>
  match v with
  | .null => hnull
  | .bool b => hbool b
  | .num n => hnum n
  | .str s => hstr s
  | .arr xs => harr xs (fun x _hx => Json.recAll P hnull hbool hnum hstr harr hobj x)
  | .obj kvs => hobj kvs (fun kv _hkv => Json.recAll P hnull hbool hnum hstr harr hobj kv.2)
termination_by v => sizeOf v
decreasing_by
  · have := List.sizeOf_lt_of_mem _hx
    simp only [Json.arr.sizeOf_spec]
    omega
  · have h1 := List.sizeOf_lt_of_mem _hkv
    have h2 : sizeOf kv.2 < sizeOf kv := by
      obtain ⟨a, b⟩ := kv
      simp only [Prod.mk.sizeOf_spec]
      omega
    simp only [Json.obj.sizeOf_spec]
    omega

theorem string_mk_data (s : String) : String.mk s.data = s := by
  cases s
  rfl

theorem skipWs_cons_ws (c : Char) (cs : List Char) (h : isWs c = true) :
    skipWs (c :: cs) = skipWs cs := by
  simp [skipWs, h]

theorem skipWs_cons_not_ws (c : Char) (cs : List Char) (h : isWs c = false) :
    skipWs (c :: cs) = c :: cs := by
  simp [skipWs, h]

theorem skipWs_ws_append (ws cs : List Char) (h : ∀ c ∈ ws, isWs c = true) :
    skipWs (ws ++ cs) = skipWs cs := by
  induction ws with
  | nil => rfl
  | cons c ws ih =>
    simp only [List.cons_append]
    rw [skipWs_cons_ws _ _ (h c (List.mem_cons_self c ws))]
    exact ih fun d hd => h d (List.mem_cons_of_mem c hd)

theorem spaces_allWs (n : Nat) : ∀ c ∈ spaces n, isWs c = true := by
  induction n with
  | zero => intro c hc; simp [spaces] at hc
  | succ n ih =>
    intro c hc
    simp only [spaces, List.mem_cons] at hc
    rcases hc with rfl | hc
    · decide
    · exact ih c hc

theorem spaces_length (n : Nat) : (spaces n).length = n := by
  induction n with
  | zero => rfl
  | succ n ih => simp [spaces, ih]

theorem digitChar_isDigit (m : Nat) (h : m < 10) : (Char.ofNat (m + 48)).isDigit = true := by
  interval_cases m <;> decide

theorem digitChar_toNat (m : Nat) (h : m < 10) : (Char.ofNat (m + 48)).toNat = m + 48 := by
  interval_cases m <;> decide

theorem hexVal_hexDigit (m : Nat) (h : m < 16) : hexVal (hexDigit m) = some m := by
  interval_cases m <;> decide

theorem natDigits_zero (fuel : Nat) : natDigits fuel 0 = [] := by
  cases fuel <;> simp [natDigits]

theorem natDigits_all_digits (fuel : Nat) :
    ∀ n, ∀ c ∈ natDigits fuel n, c.isDigit = true := by
  induction fuel with
  | zero => intro n c hc; simp [natDigits] at hc
  | succ fuel ih =>
    intro n c hc
    by_cases h : n = 0
    · simp [natDigits, h] at hc
    · simp only [natDigits, if_neg h, List.mem_append, List.mem_singleton] at hc
      rcases hc with hc | rfl
      · exact ih _ c hc
      · exact digitChar_isDigit (n % 10) (Nat.mod_lt n (by omega))

theorem natDigits_foldl (fuel : Nat) :
    ∀ n acc, 0 < n → n ≤ fuel →
      (natDigits fuel n).foldl (fun a c => a * 10 + (c.toNat - 48)) acc
        = acc * 10 ^ (natDigits fuel n).length + n := by
  induction fuel with
  | zero => intro n acc h1 h2; omega
  | succ fuel ih =>
    intro n acc h1 h2
    have hne : n ≠ 0 := by omega
    have hmod : (Char.ofNat (n % 10 + 48)).toNat = n % 10 + 48 :=
      digitChar_toNat (n % 10) (Nat.mod_lt n (by omega))
    simp only [natDigits, if_neg hne, List.foldl_append, List.foldl_cons, List.foldl_nil,
      List.length_append, List.length_cons, List.length_nil]
    by_cases h10 : n < 10
    · have hdiv : n / 10 = 0 := Nat.div_eq_of_lt h10
      rw [hdiv, natDigits_zero]
      simp only [List.foldl_nil, List.length_nil, hmod]
      have : n % 10 = n := Nat.mod_eq_of_lt h10
      simp [this]
    · have hpos : 0 < n / 10 := Nat.div_pos (by omega) (by omega)
      have hle : n / 10 ≤ fuel := by
        have := Nat.div_lt_self h1 (by omega : 1 < 10)
        omega
      rw [ih (n / 10) acc hpos hle, hmod, Nat.add_sub_cancel]
      generalize (natDigits fuel (n / 10)).length = L
      rw [pow_succ]
      generalize (10 : Nat) ^ L = P
      ring_nf
      omega

theorem natRender_all_digits (n : Nat) : ∀ c ∈ natRender n, c.isDigit = true := by
  intro c hc
  unfold natRender at hc
  by_cases h : n = 0
  · simp [h] at hc
    subst hc
    decide
  · exact natDigits_all_digits (n + 1) n c (by simpa [h] using hc)

theorem natRender_ne_nil (n : Nat) : natRender n ≠ [] := by
  unfold natRender
  by_cases h : n = 0
  · simp [h]
  · simp only [if_neg h, natDigits, h]
    simp

theorem parseNatAux_stop (rest : List Char) (acc : Nat) (h : noDigitHead rest) :
    parseNatAux rest acc = (acc, rest) := by
  cases rest with
  | nil => rfl
  | cons c cs =>
    simp only [noDigitHead] at h
    simp [parseNatAux, h]

theorem parseNatAux_digits (ds : List Char) :
    ∀ rest acc, (∀ c ∈ ds, c.isDigit = true) → noDigitHead rest →
      parseNatAux (ds ++ rest) acc
        = (ds.foldl (fun a c => a * 10 + (c.toNat - 48)) acc, rest) := by
  induction ds with
  | nil => intro rest acc _ hrest; simpa using parseNatAux_stop rest acc hrest
  | cons c ds ih =>
    intro rest acc hds hrest
    have hc : c.isDigit = true := hds c (List.mem_cons_self _ _)
    simp only [List.cons_append, parseNatAux, hc, if_true, List.foldl_cons]
    exact ih rest _ (fun d hd => hds d (List.mem_cons_of_mem _ hd)) hrest

theorem parseNatAux_natRender (n : Nat) (rest : List Char) (hrest : noDigitHead rest) :
    parseNatAux (natRender n ++ rest) 0 = (n, rest) := by
  by_cases h : n = 0
  · subst h
    rw [parseNatAux_digits _ rest 0 (natRender_all_digits 0) hrest]
    have h48 : ('0' : Char).toNat = 48 := rfl
    simp [natRender, h48]
  · unfold natRender
    rw [if_neg h]
    rw [parseNatAux_digits _ rest 0
      (by simpa [natRender, if_neg h] using natRender_all_digits n) hrest]
    rw [natDigits_foldl (n + 1) n 0 (by omega) (by omega)]
    simp


theorem parseStrBody_u (a b : Nat) (ha : a < 16) (hb : b < 16) (X : List Char) :
    parseStrBody ('\\' :: 'u' :: '0' :: '0' :: hexDigit a :: hexDigit b :: X)
      = (parseStrBody X).map fun p =>
          (Char.ofNat (((0 * 16 + 0) * 16 + a) * 16 + b) :: p.1, p.2) := by
  conv_lhs => rw [parseStrBody.eq_def]
  simp [hexVal_hexDigit _ ha, hexVal_hexDigit _ hb, show hexVal '0' = some 0 from by decide]

theorem parseStrBody_escBody (s : List Char) : ∀ rest : List Char,
    parseStrBody (escBody s ++ rest) = some (s, rest) := by
  induction s with
  | nil =>
    intro rest
    show parseStrBody ('"' :: rest) = some ([], rest)
    conv_lhs => rw [parseStrBody.eq_def]
    simp
  | cons c cs ih =>
    intro rest
    simp only [escBody, List.append_assoc]
    by_cases h1 : c = '"'
    · subst h1
      show parseStrBody ('\\' :: '"' :: (escBody cs ++ rest)) = _
      conv_lhs => rw [parseStrBody.eq_def]
      simp [ih]
    · by_cases h2 : c = '\\'
      · subst h2
        show parseStrBody ('\\' :: '\\' :: (escBody cs ++ rest)) = _
        conv_lhs => rw [parseStrBody.eq_def]
        simp [ih]
      · by_cases h3 : c = '\n'
        · subst h3
          show parseStrBody ('\\' :: 'n' :: (escBody cs ++ rest)) = _
          conv_lhs => rw [parseStrBody.eq_def]
          simp [ih]
        · by_cases h4 : c = '\t'
          · subst h4
            show parseStrBody ('\\' :: 't' :: (escBody cs ++ rest)) = _
            conv_lhs => rw [parseStrBody.eq_def]
            simp [ih]
          · by_cases h5 : c = '\r'
            · subst h5
              show parseStrBody ('\\' :: 'r' :: (escBody cs ++ rest)) = _
              conv_lhs => rw [parseStrBody.eq_def]
              simp [ih]
            · by_cases h6 : c.toNat = 8
              · have hc : c = Char.ofNat 8 := by rw [← h6, Char.ofNat_toNat]
                subst hc
                show parseStrBody ('\\' :: 'b' :: (escBody cs ++ rest)) = _
                conv_lhs => rw [parseStrBody.eq_def]
                simp [ih]
              · by_cases h7 : c.toNat = 12
                · have hc : c = Char.ofNat 12 := by rw [← h7, Char.ofNat_toNat]
                  subst hc
                  show parseStrBody ('\\' :: 'f' :: (escBody cs ++ rest)) = _
                  conv_lhs => rw [parseStrBody.eq_def]
                  simp [ih]
                · by_cases h8 : c.toNat < 32
                  · have hdiv : c.toNat / 16 < 16 := by omega
                    have hmod : c.toNat % 16 < 16 := by omega
                    rw [show escapeChar c = ['\\', 'u', '0', '0', hexDigit (c.toNat / 16),
                        hexDigit (c.toNat % 16)] from by
                      rw [escapeChar]
                      simp [h1, h2, h3, h4, h5, h6, h7, h8]]
                    simp only [List.cons_append, List.nil_append]
                    rw [parseStrBody_u _ _ hdiv hmod]
                    rw [show ((0 * 16 + 0) * 16 + c.toNat / 16) * 16 + c.toNat % 16
                        = c.toNat from by omega]
                    rw [Char.ofNat_toNat, ih]
                    rfl
                  · rw [show escapeChar c = [c] from by
                      rw [escapeChar]
                      simp [h1, h2, h3, h4, h5, h6, h7, h8]]
                    simp only [List.cons_append, List.nil_append]
                    conv_lhs => rw [parseStrBody.eq_def]
                    simp [h1, h2, ih]

theorem noDigitHead_cons (c : Char) (t : List Char) (h : c.isDigit = false) :
    noDigitHead (c :: t) := h

theorem isDigit_not_ws (c : Char) (h : c.isDigit = true) : isWs c = false := by
  by_contra hw
  have hw' : isWs c = true := by revert hw; cases isWs c <;> simp
  simp only [isWs, Bool.or_eq_true, decide_eq_true_eq] at hw'
  rcases hw' with ((rfl | rfl) | rfl) | rfl <;> exact absurd h (by decide)

theorem isDigit_ne_special (c : Char) (h : c.isDigit = true) :
    c ≠ 'n' ∧ c ≠ 't' ∧ c ≠ 'f' ∧ c ≠ '"' ∧ c ≠ '[' ∧ c ≠ '\x7b' ∧ c ≠ ']' ∧
      c ≠ '\x7d' ∧ c ≠ ',' := by
  refine ⟨?_, ?_, ?_, ?_, ?_, ?_, ?_, ?_, ?_⟩ <;> rintro rfl <;> exact absurd h (by decide)

theorem renderVal_head (v : Json) (d : Nat) : ∃ c cs, renderVal v d = c :: cs ∧
    isWs c = false ∧ c ≠ ']' ∧ c ≠ '\x7d' ∧ c ≠ ',' := by
  cases v with
  | null => exact ⟨'n', ['u', 'l', 'l'], rfl, by decide, by decide, by decide, by decide⟩
  | bool b =>
    cases b
    · exact ⟨'f', ['a', 'l', 's', 'e'], rfl, by decide, by decide, by decide, by decide⟩
    · exact ⟨'t', ['r', 'u', 'e'], rfl, by decide, by decide, by decide, by decide⟩
  | num n =>
    rcases hn : natRender n with _ | ⟨c, cs⟩
    · exact absurd hn (natRender_ne_nil n)
    · have hd : c.isDigit = true :=
        natRender_all_digits n c (by rw [hn]; exact List.mem_cons_self _ _)
      obtain ⟨_, _, _, _, _, _, h7, h8, h9⟩ := isDigit_ne_special c hd
      exact ⟨c, cs, by rw [show renderVal (.num n) d = natRender n from rfl, hn],
        isDigit_not_ws c hd, h7, h8, h9⟩
  | str s => exact ⟨'"', escBody s.data, rfl, by decide, by decide, by decide, by decide⟩
  | arr xs =>
    cases xs with
    | nil => exact ⟨'[', [']'], rfl, by decide, by decide, by decide, by decide⟩
    | cons x xs => exact ⟨'[', _, rfl, by decide, by decide, by decide, by decide⟩
  | obj kvs =>
    cases kvs with
    | nil => exact ⟨'\x7b', ['\x7d'], rfl, by decide, by decide, by decide, by decide⟩
    | cons kv kvs =>
      obtain ⟨k, v⟩ := kv
      exact ⟨'\x7b', _, rfl, by decide, by decide, by decide, by decide⟩

theorem parseArrItems_render (xs : List Json) : ∀ x : Json, ParsesBack x →
    (∀ y ∈ xs, ParsesBack y) →
    ∀ fuel d d2 (ws rest : List Char), needArr (x :: xs) ≤ fuel →
      (∀ c ∈ ws, isWs c = true) →
      parseArrItems fuel (ws ++ renderItems (x :: xs) d ++ '\n' :: spaces d2 ++ ']' :: rest)
        = some (x :: xs, rest) := by
  induction xs with
  | nil =>
    intro x hx _ fuel d d2 ws rest hfuel hws
    simp only [needArr] at hfuel
    obtain ⟨f, rfl⟩ : ∃ f, fuel = f + 1 := ⟨fuel - 1, by omega⟩
    simp only [renderItems, renderArrTail, List.append_nil, List.append_assoc,
      List.cons_append]
    simp only [parseArrItems]
    rw [hx f d ws ('\n' :: (spaces d2 ++ ']' :: rest)) (by omega) hws
      (noDigitHead_cons _ _ (by decide))]
    have hskip : skipWs ('\n' :: (spaces d2 ++ ']' :: rest)) = ']' :: rest := by
      rw [skipWs_cons_ws '\n' _ (by decide), skipWs_ws_append _ _ (spaces_allWs d2)]
      exact skipWs_cons_not_ws ']' _ (by decide)
    simp [hskip]
  | cons y ys ih =>
    intro x hx hys fuel d d2 ws rest hfuel hws
    simp only [needArr] at hfuel
    obtain ⟨f, rfl⟩ : ∃ f, fuel = f + 1 := ⟨fuel - 1, by omega⟩
    simp only [renderItems, renderArrTail, List.append_assoc, List.cons_append]
    simp only [parseArrItems]
    rw [hx f d ws (',' :: '\n' :: (spaces d ++ (renderVal y d ++ (renderArrTail ys d
        ++ '\n' :: (spaces d2 ++ ']' :: rest))))) (by omega) hws
      (noDigitHead_cons _ _ (by decide))]
    have hskip : skipWs (',' :: '\n' :: (spaces d ++ (renderVal y d ++ (renderArrTail ys d
        ++ '\n' :: (spaces d2 ++ ']' :: rest)))))
        = ',' :: '\n' :: (spaces d ++ (renderVal y d ++ (renderArrTail ys d
        ++ '\n' :: (spaces d2 ++ ']' :: rest)))) :=
      skipWs_cons_not_ws ',' _ (by decide)
    have harr : parseArrItems f ('\n' :: (spaces d ++ (renderVal y d ++ (renderArrTail ys d
        ++ '\n' :: (spaces d2 ++ ']' :: rest))))) = some (y :: ys, rest) := by
      have hmain := ih y (hys y (List.mem_cons_self _ _))
        (fun z hz => hys z (List.mem_cons_of_mem _ hz)) f d d2 ('\n' :: spaces d) rest
        (by simp only [needArr]; omega)
        (by intro c hc
            simp only [List.mem_cons] at hc
            rcases hc with rfl | hc
            · decide
            · exact spaces_allWs d c hc)
      simpa [renderItems, List.append_assoc, List.cons_append] using hmain
    simp [hskip, harr]

theorem parseObjItems_render (kvs : List (String × Json)) : ∀ (k : String) (v : Json),
    ParsesBack v → (∀ kv ∈ kvs, ParsesBack kv.2) →
    ∀ fuel d d2 (ws rest : List Char), needObj ((k, v) :: kvs) ≤ fuel →
      (∀ c ∈ ws, isWs c = true) →
      parseObjItems fuel
          (ws ++ renderKVs ((k, v) :: kvs) d ++ '\n' :: spaces d2 ++ '\x7d' :: rest)
        = some ((k, v) :: kvs, rest) := by
  induction kvs with
  | nil =>
    intro k v hv _ fuel d d2 ws rest hfuel hws
    simp only [needObj] at hfuel
    obtain ⟨f, rfl⟩ : ∃ f, fuel = f + 1 := ⟨fuel - 1, by omega⟩
    simp only [renderKVs, renderStr, renderObjTail, List.append_nil, List.append_assoc,
      List.cons_append]
    simp only [parseObjItems]
    have hskip0 : skipWs (ws ++ '"' :: (escBody k.data ++ ':' :: ' ' ::
        (renderVal v d ++ '\n' :: (spaces d2 ++ '\x7d' :: rest))))
        = '"' :: (escBody k.data ++ ':' :: ' ' ::
        (renderVal v d ++ '\n' :: (spaces d2 ++ '\x7d' :: rest))) := by
      rw [skipWs_ws_append _ _ hws]
      exact skipWs_cons_not_ws '"' _ (by decide)
    have hstr := parseStrBody_escBody k.data
      (':' :: ' ' :: (renderVal v d ++ '\n' :: (spaces d2 ++ '\x7d' :: rest)))
    have hskip1 : skipWs (':' :: ' ' :: (renderVal v d ++ '\n' ::
        (spaces d2 ++ '\x7d' :: rest)))
        = ':' :: ' ' :: (renderVal v d ++ '\n' :: (spaces d2 ++ '\x7d' :: rest)) :=
      skipWs_cons_not_ws ':' _ (by decide)
    have hval : parseVal f (' ' :: (renderVal v d ++ '\n' :: (spaces d2 ++ '\x7d' :: rest)))
        = some (v, '\n' :: (spaces d2 ++ '\x7d' :: rest)) := by
      have := hv f d [' '] ('\n' :: (spaces d2 ++ '\x7d' :: rest)) (by omega)
        (by intro c hc; simp only [List.mem_singleton] at hc; subst hc; decide)
        (noDigitHead_cons _ _ (by decide))
      simpa using this
    have hskip2 : skipWs ('\n' :: (spaces d2 ++ '\x7d' :: rest)) = '\x7d' :: rest := by
      rw [skipWs_cons_ws '\n' _ (by decide), skipWs_ws_append _ _ (spaces_allWs d2)]
      exact skipWs_cons_not_ws '\x7d' _ (by decide)
    simp [hskip0, hstr, hskip1, hval, hskip2, string_mk_data]
  | cons kv2 kvs ih =>
    intro k v hv hkvs fuel d d2 ws rest hfuel hws
    obtain ⟨k2, v2⟩ := kv2
    simp only [needObj] at hfuel
    obtain ⟨f, rfl⟩ : ∃ f, fuel = f + 1 := ⟨fuel - 1, by omega⟩
    simp only [renderKVs, renderStr, renderObjTail, List.append_assoc, List.cons_append]
    simp only [parseObjItems]
    have hskip0 : skipWs (ws ++ '"' :: (escBody k.data ++ ':' :: ' ' ::
        (renderVal v d ++ ',' :: '\n' :: (spaces d ++ ('"' :: (escBody k2.data ++ ':' :: ' ' ::
        (renderVal v2 d ++ (renderObjTail kvs d ++ '\n' :: (spaces d2 ++ '\x7d' :: rest)))))))))
        = '"' :: (escBody k.data ++ ':' :: ' ' ::
        (renderVal v d ++ ',' :: '\n' :: (spaces d ++ ('"' :: (escBody k2.data ++ ':' :: ' ' ::
        (renderVal v2 d ++ (renderObjTail kvs d ++ '\n' ::
          (spaces d2 ++ '\x7d' :: rest)))))))) := by
      rw [skipWs_ws_append _ _ hws]
      exact skipWs_cons_not_ws '"' _ (by decide)
    have hstr := parseStrBody_escBody k.data
      (':' :: ' ' :: (renderVal v d ++ ',' :: '\n' :: (spaces d ++ ('"' :: (escBody k2.data
        ++ ':' :: ' ' :: (renderVal v2 d ++ (renderObjTail kvs d ++ '\n' ::
        (spaces d2 ++ '\x7d' :: rest))))))))
    have hskip1 := skipWs_cons_not_ws ':'
      (' ' :: (renderVal v d ++ ',' :: '\n' :: (spaces d ++ ('"' :: (escBody k2.data
        ++ ':' :: ' ' :: (renderVal v2 d ++ (renderObjTail kvs d ++ '\n' ::
        (spaces d2 ++ '\x7d' :: rest)))))))) (by decide)
    have hval : parseVal f (' ' :: (renderVal v d ++ ',' :: '\n' :: (spaces d ++
        ('"' :: (escBody k2.data ++ ':' :: ' ' :: (renderVal v2 d ++ (renderObjTail kvs d
          ++ '\n' :: (spaces d2 ++ '\x7d' :: rest))))))))
        = some (v, ',' :: '\n' :: (spaces d ++ ('"' :: (escBody k2.data ++ ':' :: ' ' ::
            (renderVal v2 d ++ (renderObjTail kvs d ++ '\n' ::
              (spaces d2 ++ '\x7d' :: rest))))))) := by
      have := hv f d [' '] (',' :: '\n' :: (spaces d ++ ('"' :: (escBody k2.data
          ++ ':' :: ' ' :: (renderVal v2 d ++ (renderObjTail kvs d ++ '\n' ::
          (spaces d2 ++ '\x7d' :: rest))))))) (by omega)
        (by intro c hc; simp only [List.mem_singleton] at hc; subst hc; decide)
        (noDigitHead_cons _ _ (by decide))
      simpa using this
    have hskip2 := skipWs_cons_not_ws ','
      ('\n' :: (spaces d ++ ('"' :: (escBody k2.data ++ ':' :: ' ' :: (renderVal v2 d
        ++ (renderObjTail kvs d ++ '\n' :: (spaces d2 ++ '\x7d' :: rest))))))) (by decide)
    have hrec : parseObjItems f ('\n' :: (spaces d ++ ('"' :: (escBody k2.data ++ ':' :: ' ' ::
        (renderVal v2 d ++ (renderObjTail kvs d ++ '\n' :: (spaces d2 ++ '\x7d' :: rest)))))))
        = some ((k2, v2) :: kvs, rest) := by
      have hmain := ih k2 v2 (hkvs (k2, v2) (List.mem_cons_self _ _))
        (fun z hz => hkvs z (List.mem_cons_of_mem _ hz)) f d d2 ('\n' :: spaces d) rest
        (by simp only [needObj]; omega)
        (by intro c hc
            simp only [List.mem_cons] at hc
            rcases hc with rfl | hc
            · decide
            · exact spaces_allWs d c hc)
      simpa [renderKVs, renderStr, List.append_assoc, List.cons_append] using hmain
    simp [hskip0, hstr, hskip1, hval, hskip2, hrec, string_mk_data]

theorem parsesBack_all : ∀ v : Json, ParsesBack v := by
  refine Json.recAll ParsesBack ?_ ?_ ?_ ?_ ?_ ?_
  · intro fuel d ws rest hfuel hws hrest
    simp only [needVal] at hfuel
    obtain ⟨f, rfl⟩ : ∃ f, fuel = f + 1 := ⟨fuel - 1, by omega⟩
    simp only [renderVal]
    simp only [parseVal]
    have hskip : skipWs (ws ++ 'n' :: 'u' :: 'l' :: 'l' :: rest)
        = 'n' :: 'u' :: 'l' :: 'l' :: rest := by
      rw [skipWs_ws_append _ _ hws]
      exact skipWs_cons_not_ws 'n' _ (by decide)
    simp [hskip]
  · intro b fuel d ws rest hfuel hws hrest
    simp only [needVal] at hfuel
    obtain ⟨f, rfl⟩ : ∃ f, fuel = f + 1 := ⟨fuel - 1, by omega⟩
    cases b
    · simp only [renderVal]
      simp only [parseVal]
      have hskip : skipWs (ws ++ 'f' :: 'a' :: 'l' :: 's' :: 'e' :: rest)
          = 'f' :: 'a' :: 'l' :: 's' :: 'e' :: rest := by
        rw [skipWs_ws_append _ _ hws]
        exact skipWs_cons_not_ws 'f' _ (by decide)
      simp [hskip]
    · simp only [renderVal]
      simp only [parseVal]
      have hskip : skipWs (ws ++ 't' :: 'r' :: 'u' :: 'e' :: rest)
          = 't' :: 'r' :: 'u' :: 'e' :: rest := by
        rw [skipWs_ws_append _ _ hws]
        exact skipWs_cons_not_ws 't' _ (by decide)
      simp [hskip]
  · intro n fuel d ws rest hfuel hws hrest
    simp only [needVal] at hfuel
    obtain ⟨f, rfl⟩ : ∃ f, fuel = f + 1 := ⟨fuel - 1, by omega⟩
    simp only [renderVal]
    simp only [parseVal]
    rcases hn : natRender n with _ | ⟨c, cs⟩
    · exact absurd hn (natRender_ne_nil n)
    have hd : c.isDigit = true :=
      natRender_all_digits n c (by rw [hn]; exact List.mem_cons_self _ _)
    obtain ⟨hne1, hne2, hne3, hne4, _, _, _, _, _⟩ := isDigit_ne_special c hd
    have hskip : skipWs (ws ++ c :: (cs ++ rest)) = c :: (cs ++ rest) := by
      rw [skipWs_ws_append _ _ hws]
      exact skipWs_cons_not_ws c _ (isDigit_not_ws c hd)
    have hnat : parseNatAux (c :: (cs ++ rest)) 0 = (n, rest) := by
      rw [show c :: (cs ++ rest) = (c :: cs) ++ rest from rfl, ← hn]
      exact parseNatAux_natRender n rest hrest
    simp [hskip, hne1, hne2, hne3, hne4, hd, hnat]
  · intro s fuel d ws rest hfuel hws hrest
    simp only [needVal] at hfuel
    obtain ⟨f, rfl⟩ : ∃ f, fuel = f + 1 := ⟨fuel - 1, by omega⟩
    simp only [renderVal, renderStr]
    simp only [parseVal]
    have hskip : skipWs (ws ++ '"' :: (escBody s.data ++ rest))
        = '"' :: (escBody s.data ++ rest) := by
      rw [skipWs_ws_append _ _ hws]
      exact skipWs_cons_not_ws '"' _ (by decide)
    simp [hskip, parseStrBody_escBody s.data rest, string_mk_data]
  · intro xs hIH fuel d ws rest hfuel hws hrest
    simp only [needVal] at hfuel
    obtain ⟨f, rfl⟩ : ∃ f, fuel = f + 1 := ⟨fuel - 1, by omega⟩
    cases xs with
    | nil =>
      simp only [renderVal]
      simp only [parseVal]
      have hskip : skipWs (ws ++ '[' :: ']' :: rest) = '[' :: ']' :: rest := by
        rw [skipWs_ws_append _ _ hws]
        exact skipWs_cons_not_ws '[' _ (by decide)
      have hskip2 : skipWs (']' :: rest) = ']' :: rest :=
        skipWs_cons_not_ws ']' _ (by decide)
      simp [hskip, hskip2]
    | cons x xs =>
      simp only [needArr] at hfuel
      simp only [renderVal, List.append_assoc, List.cons_append, List.nil_append]
      simp only [parseVal]
      obtain ⟨c0, cs0, hx0, hx0ws, hx0b, _, _⟩ := renderVal_head x (d + 2)
      have hskip0 : skipWs (ws ++ '[' :: '\n' :: (spaces (d + 2) ++ (renderVal x (d + 2)
          ++ (renderArrTail xs (d + 2) ++ '\n' :: (spaces d ++ ']' :: rest)))))
          = '[' :: '\n' :: (spaces (d + 2) ++ (renderVal x (d + 2)
          ++ (renderArrTail xs (d + 2) ++ '\n' :: (spaces d ++ ']' :: rest)))) := by
        rw [skipWs_ws_append _ _ hws]
        exact skipWs_cons_not_ws '[' _ (by decide)
      have hskipT : skipWs ('\n' :: (spaces (d + 2) ++ (renderVal x (d + 2)
          ++ (renderArrTail xs (d + 2) ++ '\n' :: (spaces d ++ ']' :: rest)))))
          = c0 :: (cs0 ++ (renderArrTail xs (d + 2) ++ '\n' :: (spaces d ++ ']' :: rest))) := by
        rw [skipWs_cons_ws '\n' _ (by decide),
          skipWs_ws_append _ _ (spaces_allWs (d + 2)), hx0, List.cons_append]
        exact skipWs_cons_not_ws c0 _ hx0ws
      have harr : parseArrItems f (c0 :: (cs0 ++ (renderArrTail xs (d + 2)
          ++ '\n' :: (spaces d ++ ']' :: rest)))) = some (x :: xs, rest) := by
        have hmain := parseArrItems_render xs x (hIH x (List.mem_cons_self _ _))
          (fun y hy => hIH y (List.mem_cons_of_mem _ hy)) f (d + 2) d [] rest
          (by simp only [needArr]; omega) (by intro c hc; simp at hc)
        rw [show c0 :: (cs0 ++ (renderArrTail xs (d + 2) ++ '\n' :: (spaces d ++ ']' :: rest)))
            = (c0 :: cs0) ++ (renderArrTail xs (d + 2) ++ '\n' :: (spaces d ++ ']' :: rest))
          from rfl, ← hx0]
        simpa [renderItems, List.append_assoc, List.cons_append] using hmain
      simp [hskip0, hskipT, hx0b, harr]
  · intro kvs hIH fuel d ws rest hfuel hws hrest
    simp only [needVal] at hfuel
    obtain ⟨f, rfl⟩ : ∃ f, fuel = f + 1 := ⟨fuel - 1, by omega⟩
    cases kvs with
    | nil =>
      simp only [renderVal]
      simp only [parseVal]
      have hskip : skipWs (ws ++ '\x7b' :: '\x7d' :: rest) = '\x7b' :: '\x7d' :: rest := by
        rw [skipWs_ws_append _ _ hws]
        exact skipWs_cons_not_ws '\x7b' _ (by decide)
      have hskip2 : skipWs ('\x7d' :: rest) = '\x7d' :: rest :=
        skipWs_cons_not_ws '\x7d' _ (by decide)
      simp [hskip, hskip2]
    | cons kv kvs =>
      obtain ⟨k, v⟩ := kv
      simp only [needObj] at hfuel
      simp only [renderVal, renderStr, List.append_assoc, List.cons_append, List.nil_append]
      simp only [parseVal]
      have hskip0 : skipWs (ws ++ '\x7b' :: '\n' :: (spaces (d + 2) ++ ('"' ::
          (escBody k.data ++ ':' :: ' ' :: (renderVal v (d + 2)
          ++ (renderObjTail kvs (d + 2) ++ '\n' :: (spaces d ++ '\x7d' :: rest)))))))
          = '\x7b' :: '\n' :: (spaces (d + 2) ++ ('"' ::
          (escBody k.data ++ ':' :: ' ' :: (renderVal v (d + 2)
          ++ (renderObjTail kvs (d + 2) ++ '\n' :: (spaces d ++ '\x7d' :: rest)))))) := by
        rw [skipWs_ws_append _ _ hws]
        exact skipWs_cons_not_ws '\x7b' _ (by decide)
      have hskipT : skipWs ('\n' :: (spaces (d + 2) ++ ('"' ::
          (escBody k.data ++ ':' :: ' ' :: (renderVal v (d + 2)
          ++ (renderObjTail kvs (d + 2) ++ '\n' :: (spaces d ++ '\x7d' :: rest)))))))
          = '"' :: (escBody k.data ++ ':' :: ' ' :: (renderVal v (d + 2)
          ++ (renderObjTail kvs (d + 2) ++ '\n' :: (spaces d ++ '\x7d' :: rest)))) := by
        rw [skipWs_cons_ws '\n' _ (by decide), skipWs_ws_append _ _ (spaces_allWs (d + 2))]
        exact skipWs_cons_not_ws '"' _ (by decide)
      have hobj : parseObjItems f ('"' :: (escBody k.data ++ ':' :: ' ' ::
          (renderVal v (d + 2) ++ (renderObjTail kvs (d + 2) ++ '\n' ::
          (spaces d ++ '\x7d' :: rest)))))
          = some ((k, v) :: kvs, rest) := by
        have hmain := parseObjItems_render kvs k v
          (hIH (k, v) (List.mem_cons_self _ _))
          (fun z hz => hIH z (List.mem_cons_of_mem _ hz)) f (d + 2) d [] rest
          (by simp only [needObj]; omega) (by intro c hc; simp at hc)
        simpa [renderKVs, renderStr, List.append_assoc, List.cons_append] using hmain
      simp [hskip0, hskipT, hobj]

theorem renderArrTail_length (xs : List Json) (d : Nat)
    (h : ∀ x ∈ xs, ∀ d', needVal x ≤ (renderVal x d').length) :
    needArr xs ≤ (renderArrTail xs d).length + 1 := by
  induction xs with
  | nil => simp [needArr, renderArrTail]
  | cons x xs ih =>
    have h1 := h x (List.mem_cons_self _ _) d
    have h2 := ih fun y hy d' => h y (List.mem_cons_of_mem _ hy) d'
    simp only [needArr, renderArrTail, List.length_append, List.length_cons, spaces_length]
    omega

theorem renderObjTail_length (kvs : List (String × Json)) (d : Nat)
    (h : ∀ kv ∈ kvs, ∀ d', needVal kv.2 ≤ (renderVal kv.2 d').length) :
    needObj kvs ≤ (renderObjTail kvs d).length + 1 := by
  induction kvs with
  | nil => simp [needObj, renderObjTail]
  | cons kv kvs ih =>
    obtain ⟨k, v⟩ := kv
    have h1 : needVal v ≤ (renderVal v d).length := h (k, v) (List.mem_cons_self _ _) d
    have h2 := ih fun z hz d' => h z (List.mem_cons_of_mem _ hz) d'
    simp only [needObj, renderObjTail, List.length_append, List.length_cons, spaces_length]
    omega

theorem needVal_le_renderLength : ∀ v : Json, ∀ d, needVal v ≤ (renderVal v d).length := by
  refine Json.recAll (fun v => ∀ d, needVal v ≤ (renderVal v d).length) ?_ ?_ ?_ ?_ ?_ ?_
  · intro d
    simp [needVal, renderVal]
  · intro b d
    cases b <;> simp [needVal, renderVal]
  · intro n d
    simp only [needVal, renderVal]
    rcases hn : natRender n with _ | ⟨c, cs⟩
    · exact absurd hn (natRender_ne_nil n)
    · simp
  · intro s d
    simp [needVal, renderVal, renderStr]
  · intro xs hIH d
    cases xs with
    | nil => simp [needVal, needArr, renderVal]
    | cons x xs =>
      have h1 := hIH x (List.mem_cons_self _ _) (d + 2)
      have h2 := renderArrTail_length xs (d + 2)
        fun y hy d' => hIH y (List.mem_cons_of_mem _ hy) d'
      simp only [needVal, needArr, renderVal, List.length_append, List.length_cons,
        spaces_length]
      omega
  · intro kvs hIH d
    cases kvs with
    | nil => simp [needVal, needObj, renderVal]
    | cons kv kvs =>
      obtain ⟨k, v⟩ := kv
      have h1 : needVal v ≤ (renderVal v (d + 2)).length :=
        hIH (k, v) (List.mem_cons_self _ _) (d + 2)
      have h2 := renderObjTail_length kvs (d + 2)
        fun z hz d' => hIH z (List.mem_cons_of_mem _ hz) d'
      simp only [needVal, needObj, renderVal, List.length_append, List.length_cons,
        spaces_length]
      omega

/-- Round trip: `json.load` inverts `json.dumps(·, indent=2)` on every value. -/
theorem json_loads_dumps (v : Json) : json_loads (json_dumps v) = .ok v := by
  unfold json_loads json_dumps
  rw [show (String.mk (renderVal v 0)).data = renderVal v 0 from rfl]
  have h := parsesBack_all v (2 * (renderVal v 0).length + 2) 0 [] []
    (by have := needVal_le_renderLength v 0; omega)
    (by intro c hc; simp at hc) trivial
  simp only [List.nil_append, List.append_nil] at h
  rw [h]
  simp [skipWs]

theorem lookup_eq_none_of_not_mem_keys (kvs : List (String × Json)) (k : String)
    (h : k ∉ kvs.map Prod.fst) : kvs.lookup k = none := by
  induction kvs with
  | nil => rfl
  | cons kv kvs ih =>
    obtain ⟨a, b⟩ := kv
    simp only [List.map_cons, List.mem_cons] at h
    push_neg at h
    simp [List.lookup, beq_eq_false_iff_ne.mpr h.1, ih h.2]

theorem lookup_eraseKey_ne (kvs : List (String × Json)) (k k' : String) (h : k ≠ k') :
    (eraseKey kvs k').lookup k = kvs.lookup k := by
  induction kvs with
  | nil => rfl
  | cons kv kvs ih =>
    obtain ⟨a, b⟩ := kv
    by_cases ha : a = k'
    · subst ha
      simp [eraseKey, List.lookup, beq_eq_false_iff_ne.mpr h]
    · by_cases hk : k = a
      · subst hk
        simp [eraseKey, ha, List.lookup]
      · simp [eraseKey, ha, List.lookup, beq_eq_false_iff_ne.mpr hk, ih]

theorem lookup_eraseKey_self (kvs : List (String × Json)) (k : String)
    (h : (kvs.map Prod.fst).Nodup) : (eraseKey kvs k).lookup k = none := by
  induction kvs with
  | nil => rfl
  | cons kv kvs ih =>
    obtain ⟨a, b⟩ := kv
    simp only [List.map_cons, List.nodup_cons] at h
    obtain ⟨hna, hnd⟩ := h
    by_cases ha : a = k
    · subst ha
      simp only [eraseKey, if_pos rfl]
      exact lookup_eq_none_of_not_mem_keys kvs a hna
    · simp [eraseKey, ha, List.lookup, beq_eq_false_iff_ne.mpr fun hk => ha hk.symm, ih hnd]

theorem lookup_setKey_self (kvs : List (String × Json)) (k : String) (v : Json) :
    (setKey kvs k v).lookup k = some v := by
  induction kvs with
  | nil => simp [setKey, List.lookup]
  | cons kv kvs ih =>
    obtain ⟨a, b⟩ := kv
    by_cases ha : a = k
    · subst ha
      simp [setKey, List.lookup]
    · simp [setKey, ha, List.lookup, beq_eq_false_iff_ne.mpr fun hk => ha hk.symm, ih]

theorem lookup_setKey_ne (kvs : List (String × Json)) (k k' : String) (v : Json)
    (h : k ≠ k') : (setKey kvs k' v).lookup k = kvs.lookup k := by
  induction kvs with
  | nil => simp [setKey, List.lookup, beq_eq_false_iff_ne.mpr h]
  | cons kv kvs ih =>
    obtain ⟨a, b⟩ := kv
    by_cases ha : a = k'
    · subst ha
      simp [setKey, List.lookup, beq_eq_false_iff_ne.mpr h]
    · by_cases hk : k = a
      · subst hk
        simp [setKey, ha, List.lookup]
      · simp [setKey, ha, List.lookup, beq_eq_false_iff_ne.mpr hk, ih]

theorem eraseKey_sublist (kvs : List (String × Json)) (k : String) :
    (eraseKey kvs k).Sublist kvs := by
  induction kvs with
  | nil => simp [eraseKey]
  | cons kv kvs ih =>
    obtain ⟨a, b⟩ := kv
    by_cases ha : a = k
    · simp only [eraseKey, if_pos ha]
      exact List.sublist_cons_self _ _
    · simp only [eraseKey, if_neg ha]
      exact ih.cons₂ _

theorem eraseKey_nodup_keys (kvs : List (String × Json)) (k : String)
    (h : (kvs.map Prod.fst).Nodup) : ((eraseKey kvs k).map Prod.fst).Nodup :=
  h.sublist ((eraseKey_sublist kvs k).map Prod.fst)

/-- The successful mid-flight path of `check_and_update`: live DNS disagrees
with the target, the zone lookup yields an id and the record lookup a full
record dict having `id`, `created_on` and `modified_on`.  Then the function
deletes the two timestamp fields, overwrites `content`, and its outcome and
trace are exactly those of submitting that body via `update_record` after
the two read calls. -/
theorem check_and_update_reaches_put (env : Env)
    (target record zone token current : String) (zid : Json)
    (kvs : List (String × Json))
    (hres : env.gethostbyname record = .ok current)
    (hne : current ≠ target)
    (hz : env.zones token zone = .ok ⟨200, okBody [.obj [("id", zid)]]⟩)
    (hr : env.dnsRecords token zid record = .ok ⟨200, okBody [.obj kvs]⟩)
    (hid : (kvs.lookup "id").isSome = true)
    (hco : (kvs.lookup "created_on").isSome = true)
    (hmo : (kvs.lookup "modified_on").isSome = true) :
    (setKey (eraseKey (eraseKey kvs "created_on") "modified_on") "content"
        (.str target)).lookup "id" = kvs.lookup "id" ∧
    check_and_update env target record zone token
      = ((update_record env token zid
            (.obj (setKey (eraseKey (eraseKey kvs "created_on") "modified_on") "content"
              (.str target)))).1.map
            (fun fl => if fl.truthy then Outcome.updated else Outcome.updateFailed),
         [.zonesGet token zone, .recordsGet token zid record]
           ++ (update_record env token zid
                (.obj (setKey (eraseKey (eraseKey kvs "created_on") "modified_on") "content"
                  (.str target)))).2) := by
  have hidlook : (setKey (eraseKey (eraseKey kvs "created_on") "modified_on") "content"
      (.str target)).lookup "id" = kvs.lookup "id" := by
    rw [lookup_setKey_ne _ _ _ _ (by decide), lookup_eraseKey_ne _ _ _ (by decide),
      lookup_eraseKey_ne _ _ _ (by decide)]
  refine ⟨hidlook, ?_⟩
  obtain ⟨idv, hidv⟩ := Option.isSome_iff_exists.mp hid
  obtain ⟨cov, hcov⟩ := Option.isSome_iff_exists.mp hco
  obtain ⟨mov, hmov⟩ := Option.isSome_iff_exists.mp hmo
  have hzid : get_zone_id env token zone = (.ok zid, [.zonesGet token zone]) := by
    simp [get_zone_id, hz, raise_for_status, okBody, Json.pyGet, Json.truthy,
      Json.getItem, Json.getIdx, List.lookup]
  have hrd : get_a_record_details env token zid record
      = (.ok (.obj kvs), [.recordsGet token zid record]) := by
    simp [get_a_record_details, hr, raise_for_status, okBody, Json.pyGet, Json.truthy,
      Json.getItem, Json.getIdx, List.lookup]
  have hmo' : (eraseKey kvs "created_on").lookup "modified_on" = some mov := by
    rw [lookup_eraseKey_ne _ _ _ (by decide)]
    exact hmov
  rcases hur : update_record env token zid
      (.obj (setKey (eraseKey (eraseKey kvs "created_on") "modified_on") "content"
        (.str target))) with ⟨res, t3⟩
  cases res with
  | error e =>
    simp [check_and_update, hres, hne, hzid, hrd, Json.getItem, hidv, Json.pyDel, hcov,
      hmo', Json.setItem, hur, Except.map]
  | ok fl =>
    simp [check_and_update, hres, hne, hzid, hrd, Json.getItem, hidv, Json.pyDel, hcov,
      hmo', Json.setItem, hur, Except.map]

/-- C1: for every environment and record whose live DNS resolution
(`socket.gethostbyname`) already returns the target public IP,
`check_and_update` issues zero provider calls — no zone lookup, no record
fetch, no PUT (its provider-call trace is empty) — and returns the
informational "already points to …, nothing to do" no-op outcome. -/
theorem C1_noop_idempotent (env : Env) (target_ip record zone token : String)
    (h : env.gethostbyname record = .ok target_ip) :
    check_and_update env target_ip record zone token = (.ok .noOp, []) := by
  simp [check_and_update, h]

/-- C1 witness: the no-op scenario at a concrete environment. -/
theorem C1_noop_idempotent_witness :
    envNoop.gethostbyname "a.example.com" = .ok "203.0.113.5" ∧
    check_and_update envNoop "203.0.113.5" "a.example.com" "example.com" "T"
      = (.ok .noOp, []) :=
  ⟨rfl, C1_noop_idempotent envNoop "203.0.113.5" "a.example.com" "example.com" "T" rfl⟩

/-- C2 (code defect): with two configured records where the first record's
zone lookup succeeds with an empty result list, `do_updates` aborts with the
uncaught `IndexError` raised inside the first record's processing: the only
provider call made is the first record's zone lookup, and the second record
is never attempted.  The loop in `do_updates` has no try/except, so a
failure on one record prevents attempting the rest, contradicting the
claimed multi-record isolation. -/
theorem C2_first_failure_aborts_rest :
    do_updates envFirstZoneGone cfgTwoRecords
      = (.error .indexError, [ipifyRequest], [.zonesGet "T" "one.org"]) := by rfl

/-- C4 (code defect): when the zone lookup — or, second conjunct, the record
lookup — succeeds with an empty `result` list during the update flow,
`check_and_update` crashes with the unguarded `IndexError` from `result[0]`
instead of failing the record explicitly with a logged error. -/
theorem C4_empty_lookup_crashes :
    check_and_update envZoneGone "203.0.113.5" "a.example.com" "example.com" "T"
      = (.error .indexError, [.zonesGet "T" "example.com"]) ∧
    check_and_update envRecordGone "203.0.113.5" "a.example.com" "example.com" "T"
      = (.error .indexError,
         [.zonesGet "T" "example.com", .recordsGet "T" (.str "abc123") "a.example.com"]) :=
  ⟨rfl, rfl⟩

/-- C3: for every fetched record that carries the `created_on` and
`modified_on` timestamp fields (and its `id`), the record body that
`check_and_update` submits to the provider contains neither timestamp
field, its `content` field equals the target public IP exactly, and every
other field of the fetched record is preserved unchanged; the trace ends
with exactly that one PUT. -/
theorem C3_field_stripping (env : Env)
    (target record zone token current : String) (zid : Json)
    (kvs : List (String × Json))
    (hres : env.gethostbyname record = .ok current)
    (hne : current ≠ target)
    (hz : env.zones token zone = .ok ⟨200, okBody [.obj [("id", zid)]]⟩)
    (hr : env.dnsRecords token zid record = .ok ⟨200, okBody [.obj kvs]⟩)
    (hid : (kvs.lookup "id").isSome = true)
    (hco : (kvs.lookup "created_on").isSome = true)
    (hmo : (kvs.lookup "modified_on").isSome = true)
    (hnodup : (kvs.map Prod.fst).Nodup) :
    ∃ rid body,
      (check_and_update env target record zone token).2
        = [.zonesGet token zone, .recordsGet token zid record,
           .recordPut token zid rid (.obj body)] ∧
      body.lookup "created_on" = none ∧
      body.lookup "modified_on" = none ∧
      body.lookup "content" = some (.str target) ∧
      ∀ k, k ≠ "created_on" → k ≠ "modified_on" → k ≠ "content" →
        body.lookup k = kvs.lookup k := by
  obtain ⟨hidlook, heq⟩ := check_and_update_reaches_put env target record zone token current
    zid kvs hres hne hz hr hid hco hmo
  obtain ⟨idv, hidv⟩ := Option.isSome_iff_exists.mp hid
  refine ⟨idv, setKey (eraseKey (eraseKey kvs "created_on") "modified_on") "content"
    (.str target), ?_, ?_, ?_, ?_, ?_⟩
  · rw [heq]
    have hbid : (setKey (eraseKey (eraseKey kvs "created_on") "modified_on") "content"
        (.str target)).lookup "id" = some idv := by rw [hidlook]; exact hidv
    simp [update_record, Json.getItem, hbid]
  · rw [lookup_setKey_ne _ _ _ _ (by decide), lookup_eraseKey_ne _ _ _ (by decide)]
    exact lookup_eraseKey_self kvs "created_on" hnodup
  · rw [lookup_setKey_ne _ _ _ _ (by decide)]
    exact lookup_eraseKey_self _ "modified_on" (eraseKey_nodup_keys kvs "created_on" hnodup)
  · exact lookup_setKey_self _ _ _
  · intro k h1 h2 h3
    rw [lookup_setKey_ne _ _ _ _ h3, lookup_eraseKey_ne _ _ _ h2, lookup_eraseKey_ne _ _ _ h1]

/-- C3 witness: the field-stripping conclusion at a concrete stale record. -/
theorem C3_field_stripping_witness :
    ∃ rid body,
      (check_and_update envStale "203.0.113.5" "a.example.com" "example.com" "T").2
        = [.zonesGet "T" "example.com", .recordsGet "T" (.str "abc123") "a.example.com",
           .recordPut "T" (.str "abc123") rid (.obj body)] ∧
      body.lookup "created_on" = none ∧
      body.lookup "modified_on" = none ∧
      body.lookup "content" = some (.str "203.0.113.5") ∧
      ∀ k, k ≠ "created_on" → k ≠ "modified_on" → k ≠ "content" →
        body.lookup k = ([("id", Json.str "rec1"), ("name", .str "a.example.com"),
          ("type", .str "A"), ("content", .str "198.51.100.9"),
          ("created_on", .str "2020-01-01"),
          ("modified_on", .str "2020-01-02")] : List (String × Json)).lookup k :=
  C3_field_stripping envStale "203.0.113.5" "a.example.com" "example.com" "T" "198.51.100.9"
    (Json.str "abc123")
    [("id", Json.str "rec1"), ("name", Json.str "a.example.com"), ("type", Json.str "A"),
     ("content", Json.str "198.51.100.9"), ("created_on", Json.str "2020-01-01"),
     ("modified_on", Json.str "2020-01-02")]
    rfl (by decide) rfl rfl rfl rfl rfl (by decide)

/-- C5: during first-run setup (config file absent), a rejected credential
(HTTP error on the zone lookup) exits with code 1, a zone name matching no
zone (success with empty result) with code 2, and a record name matching no
A record under the zone with code 3; in each case the filesystem returned
by `get_config` is exactly the input one — the exit happens before any
config file is written. -/
theorem C5_setup_exit_codes (path : String) (fs : FS) (su : SetupEnv) (env : Env)
    (fenv : FsEnv) (hmissing : fs path = none) :
    (∀ status body, env.zones su.tokenInput su.zoneInput = .ok ⟨status, body⟩ →
       400 ≤ status → status < 600 →
       get_config path fs su env fenv = (.error (.exit 1), fs, [])) ∧
    (env.zones su.tokenInput su.zoneInput = .ok ⟨200, okBody []⟩ →
       get_config path fs su env fenv = (.error (.exit 2), fs, [])) ∧
    (∀ zid, env.zones su.tokenInput su.zoneInput = .ok ⟨200, okBody [.obj [("id", zid)]]⟩ →
       env.dnsRecords su.tokenInput zid su.recordInput = .ok ⟨200, okBody []⟩ →
       get_config path fs su env fenv = (.error (.exit 3), fs, [])) := by
  refine ⟨?_, ?_, ?_⟩
  · intro status body h h4 h6
    have hra : raise_for_status status = .error .httpError := by
      simp [raise_for_status, h4, h6]
    simp [get_config, hmissing, ask_for_config, get_zone_id, h, hra]
  · intro h
    simp [get_config, hmissing, ask_for_config, get_zone_id, h, raise_for_status, okBody,
      Json.pyGet, Json.truthy, Json.getItem, Json.getIdx, List.lookup]
  · intro zid hz hr
    simp [get_config, hmissing, ask_for_config, get_zone_id, get_a_record_details, hz, hr,
      raise_for_status, okBody, Json.pyGet, Json.truthy, Json.getItem, Json.getIdx,
      List.lookup]

/-- C5 witness: the three exit codes at concrete environments, with the
filesystem unchanged. -/
theorem C5_setup_exit_codes_witness :
    get_config "cfg.json" fsEmpty suExample envAuthRejected fenvOk
      = (.error (.exit 1), fsEmpty, []) ∧
    get_config "cfg.json" fsEmpty suExample envZoneGone fenvOk
      = (.error (.exit 2), fsEmpty, []) ∧
    get_config "cfg.json" fsEmpty suExample envRecordGone fenvOk
      = (.error (.exit 3), fsEmpty, []) :=
  ⟨(C5_setup_exit_codes "cfg.json" fsEmpty suExample envAuthRejected fenvOk rfl).1
      403 (Json.obj []) rfl (by decide) (by decide),
   (C5_setup_exit_codes "cfg.json" fsEmpty suExample envZoneGone fenvOk rfl).2.1 rfl,
   (C5_setup_exit_codes "cfg.json" fsEmpty suExample envRecordGone fenvOk rfl).2.2
      (Json.str "abc123") rfl rfl⟩

/-- C6: if writing the config file — or restricting its permissions with
`os.chmod` — fails, `save_config` logs the 'Failed to create' error and
returns normally; `get_config` still returns the interactively constructed
config, so the current run proceeds with it. -/
theorem C6_save_failure_nonfatal (config : Json) (path : String) (fenv : FsEnv) (fs : FS)
    (hfail : fenv.openFails path = true ∨
      (fenv.openFails path = false ∧ fenv.chmodFails path = true)) :
    (save_config config path fenv fs).2 = [.errorFailedToCreate path] ∧
    ∀ su env, fs path = none → ask_for_config su env = .ok config →
      (get_config path fs su env fenv).1 = .ok config := by
  constructor
  · rcases hfail with h | ⟨h1, h2⟩
    · simp [save_config, h]
    · simp [save_config, h1, h2]
  · intro su env hmissing hask
    simp [get_config, hmissing, hask]

/-- C6 witness: a read-only filesystem at a concrete first run. -/
theorem C6_save_failure_nonfatal_witness :
    (save_config (.obj [("token", .str "T")]) "cfg.json" fenvReadOnly fsEmpty).2
      = [.errorFailedToCreate "cfg.json"] ∧
    (get_config "cfg.json" fsEmpty suExample envStale fenvReadOnly).1
      = .ok (.obj [("token", .str "T"), ("zone", .str "example.com"),
          ("record", .str "a.example.com")]) :=
  ⟨(C6_save_failure_nonfatal (Json.obj [("token", Json.str "T")]) "cfg.json" fenvReadOnly
      fsEmpty (Or.inl rfl)).1,
   (C6_save_failure_nonfatal (Json.obj [("token", Json.str "T"),
        ("zone", Json.str "example.com"), ("record", Json.str "a.example.com")]) "cfg.json"
      fenvReadOnly fsEmpty (Or.inl rfl)).2 suExample envStale rfl rfl⟩

/-- C7: for every update submission answered with an HTTP 2xx status,
`update_record` returns the provider-declared success flag from the
response body (distinct from the HTTP status); and when that declared flag
is `false`, `check_and_update` returns normally with the "Failed to update
…" warning outcome — the failed update is surfaced, not raised, and not
fatal to the run. -/
theorem C7_declared_failure_surfaced :
    (∀ (env : Env) (token : String) (zid recordJ rid : Json) (status : Nat)
        (respBody : List (String × Json)) (b : Bool),
        recordJ.getItem "id" = .ok rid →
        env.putDnsRecord token zid rid recordJ = .ok ⟨status, .obj respBody⟩ →
        200 ≤ status → status < 300 →
        respBody.lookup "success" = some (.bool b) →
        (update_record env token zid recordJ).1 = .ok (.bool b)) ∧
    (∀ (env : Env) (target record zone token current : String) (zid : Json)
        (kvs : List (String × Json)),
        env.gethostbyname record = .ok current →
        current ≠ target →
        env.zones token zone = .ok ⟨200, okBody [.obj [("id", zid)]]⟩ →
        env.dnsRecords token zid record = .ok ⟨200, okBody [.obj kvs]⟩ →
        (kvs.lookup "id").isSome = true →
        (kvs.lookup "created_on").isSome = true →
        (kvs.lookup "modified_on").isSome = true →
        (∀ r b, env.putDnsRecord token zid r b
          = .ok ⟨200, .obj [("success", .bool false)]⟩) →
        (check_and_update env target record zone token).1 = .ok .updateFailed) := by
  constructor
  · intro env token zid recordJ rid status respBody b hrid hput h2 h3 hflag
    have hra : raise_for_status status = .ok () := by
      simp only [raise_for_status]
      rw [if_neg (by omega)]
    simp [update_record, hrid, hput, hra, Json.pyGet, hflag]
  · intro env target record zone token current zid kvs hres hne hz hr hid hco hmo hput
    obtain ⟨hidlook, heq⟩ := check_and_update_reaches_put env target record zone token
      current zid kvs hres hne hz hr hid hco hmo
    obtain ⟨idv, hidv⟩ := Option.isSome_iff_exists.mp hid
    have hbid : (setKey (eraseKey (eraseKey kvs "created_on") "modified_on") "content"
        (.str target)).lookup "id" = some idv := by rw [hidlook]; exact hidv
    rw [heq]
    simp [update_record, Json.getItem, hbid, hput, raise_for_status, Json.pyGet,
      List.lookup, Json.truthy, Except.map]

/-- C7 witness: a provider that answers the PUT with HTTP 200 and
`success: false`. -/
theorem C7_declared_failure_surfaced_witness :
    (update_record envPutRejected "T" (Json.str "abc123")
        (Json.obj [("id", Json.str "rec1")])).1 = .ok (.bool false) ∧
    (check_and_update envPutRejected "203.0.113.5" "a.example.com" "example.com" "T").1
      = .ok .updateFailed :=
  ⟨C7_declared_failure_surfaced.1 envPutRejected "T" (Json.str "abc123")
      (Json.obj [("id", Json.str "rec1")]) (Json.str "rec1") 200
      [("success", Json.bool false)] false rfl rfl (by decide) (by decide) rfl,
   C7_declared_failure_surfaced.2 envPutRejected "203.0.113.5" "a.example.com"
      "example.com" "T" "198.51.100.9" (Json.str "abc123")
      [("id", Json.str "rec1"), ("name", Json.str "a.example.com"), ("type", Json.str "A"),
       ("content", Json.str "198.51.100.9"), ("created_on", Json.str "2020-01-01"),
       ("modified_on", Json.str "2020-01-02")]
      rfl (by decide) rfl rfl rfl rfl rfl (fun r b => rfl)⟩

/-- C8 counterexample: the claim says any non-2xx response raises the
error, but `raise_for_status` raises only for 4xx and 5xx statuses.  With
the echo service answering HTTP 301 — a non-2xx status — and body `x`,
`get_public_ip` returns `.ok "x"` instead of raising. -/
theorem C8_counterexample_non2xx :
    envRedirect.httpGetText ipifyRequest = .ok ⟨301, "x"⟩ ∧
    get_public_ip envRedirect = (.ok "x", [ipifyRequest]) ∧
    ∀ e : PyError, (get_public_ip envRedirect).1 ≠ .error e := by
  refine ⟨rfl, rfl, ?_⟩
  intro e
  rw [show (get_public_ip envRedirect).1 = Except.ok "x" from rfl]
  simp

/-- C8 (amended): `get_public_ip` issues exactly one request — to the fixed
echo endpoint `https://api.ipify.org/` with a 15-unit timeout — and returns
the response body with surrounding whitespace trimmed; a network failure
propagates unchanged and a 4xx/5xx response raises `HTTPError`, in either
case without retrying, and the error aborts the entire `do_updates` run
before any record is processed (no provider calls, no outcomes). -/
theorem C8_public_ip_contract (env : Env) :
    (get_public_ip env).2 = [ipifyRequest] ∧
    ipifyRequest = ⟨"https://api.ipify.org/", 15⟩ ∧
    (∀ e, env.httpGetText ipifyRequest = .error e → (get_public_ip env).1 = .error e) ∧
    (∀ status text, env.httpGetText ipifyRequest = .ok ⟨status, text⟩ →
       400 ≤ status → status < 600 → (get_public_ip env).1 = .error .httpError) ∧
    (∀ status text, env.httpGetText ipifyRequest = .ok ⟨status, text⟩ →
       ¬(400 ≤ status ∧ status < 600) → (get_public_ip env).1 = .ok (pyStrip text)) ∧
    (∀ config e, (get_public_ip env).1 = .error e →
       do_updates env config = (.error e, [ipifyRequest], [])) := by
  refine ⟨rfl, rfl, ?_, ?_, ?_, ?_⟩
  · intro e h
    simp [get_public_ip, h]
  · intro status text h h4 h6
    have hra : raise_for_status status = .error .httpError := by
      simp [raise_for_status, h4, h6]
    simp [get_public_ip, h, hra]
  · intro status text h hn
    have hra : raise_for_status status = .ok () := by
      simp only [raise_for_status]
      rw [if_neg hn]
    simp [get_public_ip, h, hra]
  · intro config e h
    have hp : get_public_ip env = ((get_public_ip env).1, [ipifyRequest]) := rfl
    rw [h] at hp
    simp [do_updates, hp]

/-- C8 witness: whitespace stripping on a padded echo body, and the
whole-run abort on a transport failure. -/
theorem C8_public_ip_contract_witness :
    envPaddedEcho.httpGetText ipifyRequest = .ok ⟨200, " 203.0.113.5 \n"⟩ ∧
    (get_public_ip envPaddedEcho).1 = .ok "203.0.113.5" ∧
    do_updates envEchoDown cfgTwoRecords = (.error .httpError, [ipifyRequest], []) := by
  refine ⟨rfl, ?_, ?_⟩
  · have h := (C8_public_ip_contract envPaddedEcho).2.2.2.2.1 200 " 203.0.113.5 \n"
      rfl (by decide)
    rw [h]
    rfl
  · exact (C8_public_ip_contract envEchoDown).2.2.2.2.2 cfgTwoRecords .httpError rfl

/-- C9: persisting any config value with `save_config` and then loading the
same path with `get_config` yields exactly the original config — the
`json.dumps(indent=2)` / `json.load` round trip — whenever the file write
itself succeeds. -/
theorem C9_config_roundtrip (config : Json) (path : String) (fs : FS) (fenv : FsEnv)
    (su : SetupEnv) (env : Env) (hw : fenv.openFails path = false) :
    (get_config path (save_config config path fenv fs).1 su env fenv).1 = .ok config := by
  have hfs : (save_config config path fenv fs).1 path = some (json_dumps config) := by
    simp [save_config, hw, apply_ite]
  simp [get_config, hfs, json_loads_dumps]

/-- C9 witness: round trip of a concrete two-record config. -/
theorem C9_config_roundtrip_witness :
    fenvOk.openFails "cfg.json" = false ∧
    (get_config "cfg.json" (save_config cfgTwoRecords "cfg.json" fenvOk fsEmpty).1
        suExample envStale fenvOk).1 = .ok cfgTwoRecords :=
  ⟨rfl, C9_config_roundtrip cfgTwoRecords "cfg.json" fsEmpty fenvOk suExample envStale rfl⟩

/-- C10: a config file that exists and is readable but whose contents are
not valid JSON makes `get_config` propagate the parse error
(`json.JSONDecodeError`, a `ValueError`) — no interactive fallback runs and
the filesystem is untouched; only a file whose open raises `IOError`
(missing or unreadable) triggers the interactive fallback. -/
theorem C10_invalid_json_propagates (path : String) (fs : FS) (su : SetupEnv) (env : Env)
    (fenv : FsEnv) :
    (∀ text, fs path = some text → json_loads text = .error .valueError →
       get_config path fs su env fenv = (.error (.uncaught .valueError), fs, [])) ∧
    (fs path = none → ∀ config, ask_for_config su env = .ok config →
       (get_config path fs su env fenv).1 = .ok config) := by
  constructor
  · intro text hread hparse
    simp [get_config, hread, hparse]
  · intro hmissing config hask
    simp [get_config, hmissing, hask]

/-- C10 witness: a file holding `not json`. -/
theorem C10_invalid_json_propagates_witness :
    fsBadJson "cloudflare-dynamic-dns.json" = some "not json" ∧
    json_loads "not json" = .error .valueError ∧
    get_config "cloudflare-dynamic-dns.json" fsBadJson suExample envStale fenvOk
      = (.error (.uncaught .valueError), fsBadJson, []) :=
  ⟨rfl, rfl,
   (C10_invalid_json_propagates "cloudflare-dynamic-dns.json" fsBadJson suExample envStale
      fenvOk).1 "not json" rfl rfl⟩
